import Mathlib

/- Batteries marks the rational-number operations irreducible, which
blocks `rfl`/`decide` evaluation of the executable embedding on concrete
fixtures; restore the default reducibility (this affects elaboration
only, not the kernel). -/
set_option allowUnsafeReducibility true in
attribute [semireducible] Rat.add

set_option allowUnsafeReducibility true in
attribute [semireducible] Rat.mul

set_option allowUnsafeReducibility true in
attribute [semireducible] Rat.inv

set_option allowUnsafeReducibility true in
attribute [semireducible] Rat.sub

set_option allowUnsafeReducibility true in
attribute [semireducible] Rat.ofScientific

/-!
# Verification of the roster-optimization core

Shallow embedding of the core of the cricket roster-optimizer backend:
the scoring function (`services/scoring.py`), the feasibility validator
(`services/validator.py`), the optimization engine (`optimizer.py`) and
the result cache (`cache.py`), together with theorems settling the
frozen specification claims.

Modelling conventions:
* pandas DataFrames become a structure carrying the list of column names
  and a list of typed rows; numeric cell values are rationals (the source
  works with Python ints/floats treated as exact decimals);
* a row carries all columns the pipeline ever uses (`name`, `runs`,
  `wickets`, `strike_rate`, `price`, `role`, `score`); null cells are not
  representable in this typed embedding, so the source's null-count check
  is vacuous here (no claim depends on null handling);
* the CBC integer-program solve is modelled exactly: a binary decision
  vector per candidate list, the solver returning a feasible assignment
  of maximal objective value when one exists and an `Infeasible` status
  otherwise (CBC is an exact branch-and-bound solver on this finite 0/1
  program);
* fallible Python functions (raising `ValueError` / `ValidationError`)
  become functions into `Except String`.
-/

/-- A row of the players DataFrame.  Fields are the columns the backend
reads: identification, raw scoring attributes, price, role and the
derived score. -/
structure Player where
  name : String
  runs : ℚ
  wickets : ℚ
  strike_rate : ℚ
  price : ℚ
  role : String
  score : ℚ
deriving Repr, DecidableEq

/-- A pandas DataFrame: the list of column names plus the typed rows. -/
structure DataFrame where
  cols : List String
  rows : List Player
deriving Repr, DecidableEq

/-- `OptimizationStrategy` enum from `models/schemas.py`. -/
inductive OptimizationStrategy where
  | MAX_SCORE
  | MAX_SCORE_PER_COST
deriving Repr, DecidableEq

/-- pulp solver statuses (`pulp.LpStatus` labels). -/
inductive LpStatus where
  | Optimal
  | NotSolved
  | Infeasible
  | Unbounded
  | Undefined
deriving Repr, DecidableEq

/-- The label `pulp.LpStatus[status]` attached to each solver status. -/
def lpStatusLabel : LpStatus → String
  | .Optimal => "Optimal"
  | .NotSolved => "Not Solved"
  | .Infeasible => "Infeasible"
  | .Unbounded => "Unbounded"
  | .Undefined => "Undefined"

/-- Result dict returned by `optimize_team`. -/
structure OptResult where
  players : List Player
  total_cost : ℚ
  total_score : ℚ
deriving Repr, DecidableEq

/-- The default role constraints literal of `optimizer.py`
(`optimize_team`, lines 45-51). -/
def optimizerDefaultRoleConstraints : List (String × ℤ) :=
  [("WK", 1), ("BAT", 4), ("BOWL", 3), ("ALL", 3)]

/-- The default role constraints literal of `services/validator.py`
(`validate_optimization_inputs`, lines 33-39). -/
def validatorDefaultRoleConstraints : List (String × ℤ) :=
  [("WK", 1), ("BAT", 4), ("BOWL", 3), ("ALL", 3)]

/-- All binary decision vectors over `n` candidates (the search space of
the 0/1 integer program: one binary variable per player row). -/
def allSelections : Nat → List (List Bool)
  | 0 => [[]]
  | n + 1 =>
      (allSelections n).map (fun s => true :: s) ++
      (allSelections n).map (fun s => false :: s)

/-- The rows whose decision variable is set in `sel` (the extraction
`player_vars[idx].varValue == 1` of `optimizer.py`). -/
def selectedRows (rows : List Player) (sel : List Bool) : List Player :=
  ((rows.zip sel).filter (fun pb => pb.2)).map (fun pb => pb.1)

/-- `Σ coeff_i · x_i` for a coefficient list and a decision vector. -/
def dotSel (coeffs : List ℚ) (sel : List Bool) : ℚ :=
  ((coeffs.zip sel).map (fun cb => if cb.2 then cb.1 else 0)).sum

/-- The efficiency coefficients built by the `MAX_SCORE_PER_COST` branch
of `optimize_team` (lines 88-99): `score/price` when `price > 0`, else
`score * 1000` when `score > 0`, else `0`.  The zero-price branch never
divides. -/
def efficiencies (prices scores : List ℚ) : List ℚ :=
  (prices.zip scores).map (fun ps =>
    if 0 < ps.1 then ps.2 / ps.1 else if 0 < ps.2 then ps.2 * 1000 else 0)

/-- The objective coefficient list of `optimize_team`, by strategy:
the efficiencies for `MAX_SCORE_PER_COST`, the raw scores otherwise. -/
def objCoeffs (strategy : OptimizationStrategy) (rows : List Player) : List ℚ :=
  match strategy with
  | .MAX_SCORE_PER_COST =>
      efficiencies (rows.map (fun p => p.price)) (rows.map (fun p => p.score))
  | .MAX_SCORE => rows.map (fun p => p.score)

/-- The constraint block of the integer program (`optimizer.py` lines
111-129): total price within budget, exactly `team_size` players, and
for every role of `role_constraints` exactly the required count. -/
def feasibleSel (rows : List Player) (budget team_size : ℤ)
    (role_constraints : List (String × ℤ)) (sel : List Bool) : Bool :=
  decide (((selectedRows rows sel).map (fun p => p.price)).sum ≤ (budget : ℚ)) &&
  decide (((selectedRows rows sel).length : ℤ) = team_size) &&
  role_constraints.all (fun rq =>
    decide ((((selectedRows rows sel).filter (fun p => p.role = rq.1)).length : ℤ) = rq.2))

/-- All feasible decision vectors of the integer program. -/
def feasibleSels (rows : List Player) (budget team_size : ℤ)
    (role_constraints : List (String × ℤ)) : List (List Bool) :=
  (allSelections rows.length).filter (feasibleSel rows budget team_size role_constraints)

/-- Model of the exact CBC solve on the finite 0/1 program: a feasible
decision vector of maximal objective value when the feasible set is
nonempty (`none` exactly when the program is infeasible). -/
def bestSel (obj : List Bool → ℚ) : List (List Bool) → Option (List Bool)
  | [] => none
  | s :: rest =>
      match bestSel obj rest with
      | none => some s
      | some b => if obj b < obj s then some s else some b

/-- The status CBC reports on this program: `Optimal` when a feasible
assignment exists, `Infeasible` otherwise. -/
def solverStatus (rows : List Player) (budget team_size : ℤ)
    (role_constraints : List (String × ℤ)) : LpStatus :=
  if (feasibleSels rows budget team_size role_constraints).isEmpty then
    .Infeasible
  else .Optimal

/-- Required columns of `optimize_team`. -/
def optimizerRequiredColumns : List String := ["name", "price", "score", "role"]

/-- `optimize_team` of `optimizer.py`: input validation, strategy-chosen
objective, budget / team-size / role constraints, exact solve, status
check and extraction of the selected roster with its totals. -/
def optimize_team (df : DataFrame) (budget : ℤ) (team_size : ℤ := 11)
    (role_constraints : Option (List (String × ℤ)) := none)
    (strategy : OptimizationStrategy := .MAX_SCORE) : Except String OptResult :=
  let rc := role_constraints.getD optimizerDefaultRoleConstraints
  if ¬ (optimizerRequiredColumns.filter (fun c => decide (c ∉ df.cols))).isEmpty then
    .error "Missing required columns"
  else if df.rows.isEmpty then
    .error "DataFrame is empty"
  else if team_size ≤ 0 then
    .error "team_size must be positive"
  else if (df.rows.length : ℤ) < team_size then
    .error "team_size exceeds available players"
  else if budget ≤ 0 then
    .error "budget must be positive"
  else
    match bestSel (dotSel (objCoeffs strategy df.rows))
        (feasibleSels df.rows budget team_size rc) with
    | none =>
        .error ("No optimal solution found. Status: " ++
          lpStatusLabel (solverStatus df.rows budget team_size rc))
    | some best =>
        let sel := selectedRows df.rows best
        .ok { players := sel,
              total_cost := (sel.map (fun p => p.price)).sum,
              total_score := (sel.map (fun p => p.score)).sum }

/-- `ValidationError` messages are plain strings in this embedding. -/
def validatorRequiredColumns : List String := ["name", "price", "role"]

/-- Number of candidates of a given role
(`df['role'].value_counts()` lookup with default 0). -/
def roleAvail (rows : List Player) (role : String) : Nat :=
  (rows.filter (fun p => p.role = role)).length

/-- Insertion of a price into a sorted price list. -/
def insertPrice (x : ℚ) : List ℚ → List ℚ
  | [] => [x]
  | y :: ys => if x ≤ y then x :: y :: ys else y :: insertPrice x ys

/-- Ascending insertion sort on prices (the order `nsmallest` uses). -/
def sortPrices : List ℚ → List ℚ
  | [] => []
  | x :: xs => insertPrice x (sortPrices xs)

/-- Sum of the `cnt` cheapest prices among the rows of a role
(`role_players.nsmallest(required_count, 'price')['price'].sum()`;
`nsmallest` returns an empty frame for a non-positive count). -/
def cheapestRoleCost (rows : List Player) (role : String) (cnt : ℤ) : ℚ :=
  ((sortPrices ((rows.filter (fun p => p.role = role)).map (fun p => p.price))).take
    cnt.toNat).sum

/-- Validation 3 of `validate_optimization_inputs`: walk the quota in
order and fail at the first role with fewer available candidates than
required. -/
def checkAvailability (rows : List Player) : List (String × ℤ) → Except String Unit
  | [] => .ok ()
  | (role, cnt) :: rest =>
      if (roleAvail rows role : ℤ) < cnt then
        .error ("Insufficient players for role " ++ role)
      else checkAvailability rows rest

/-- Validation 4's accumulation loop: walk the quota in order, fail at
the first role with no candidates at all, otherwise add up the per-role
cheapest selections. -/
def minCostLoop (rows : List Player) : List (String × ℤ) → Except String ℚ
  | [] => .ok 0
  | (role, cnt) :: rest =>
      if (rows.filter (fun p => p.role = role)).isEmpty then
        .error ("No players available for role " ++ role)
      else do
        let restCost ← minCostLoop rows rest
        .ok (cheapestRoleCost rows role cnt + restCost)

/-- The lower-bound cost of the specification: for each role in the
quota, the sum of the prices of the `required_count` cheapest candidates
of that role, summed across all roles. -/
def lowerBoundCost (rows : List Player) (role_constraints : List (String × ℤ)) : ℚ :=
  (role_constraints.map (fun rq => cheapestRoleCost rows rq.1 rq.2)).sum

/-- `validate_optimization_inputs` of `services/validator.py`: positive
budget, required columns, per-role availability, and the minimum-cost
budget check. -/
def validate_optimization_inputs (budget : ℤ) (df : DataFrame)
    (role_constraints : Option (List (String × ℤ)) := none) : Except String Unit :=
  let rc := role_constraints.getD validatorDefaultRoleConstraints
  if budget ≤ 0 then .error "Budget must be positive"
  else if ¬ (validatorRequiredColumns.filter (fun c => decide (c ∉ df.cols))).isEmpty then
    .error "Missing required columns in player data"
  else do
    checkAvailability df.rows rc
    let minCost ← minCostLoop df.rows rc
    if (budget : ℚ) < minCost then .error "Budget is insufficient"
    else .ok ()

/-- Required columns of `validate_dataframe`. -/
def dataframeRequiredColumns : List String := ["name", "price", "role", "score"]

/-- `validate_dataframe` of `services/validator.py`: non-empty data,
required columns, and strictly positive prices.  The source's null-value
count over the critical columns is vacuous in this typed embedding
(null cells are not representable); it performs no duplicate-id check. -/
def validate_dataframe (df : DataFrame) : Except String Unit :=
  if df.rows.isEmpty then
    .error "Player data is empty. No players available for selection."
  else if ¬ (dataframeRequiredColumns.filter (fun c => decide (c ∉ df.cols))).isEmpty then
    .error "Missing required columns"
  else if ¬ (df.rows.filter (fun p => decide (p.price ≤ 0))).isEmpty then
    .error "Found players with invalid prices"
  else .ok ()

/-- Required columns of `calculate_score`. -/
def scoringRequiredColumns : List String := ["runs", "wickets", "strike_rate"]

/-- `calculate_score` of `services/scoring.py`: copy the frame, check the
raw attribute columns, and write the score column
`runs * 0.5 + wickets * 20 + strike_rate * 0.3` (the copy is what makes
the source leave its input unmodified; the embedding is pure). -/
def calculate_score (df : DataFrame) : Except String DataFrame :=
  if ¬ (scoringRequiredColumns.filter (fun c => decide (c ∉ df.cols))).isEmpty then
    .error "Missing required columns"
  else
    .ok { cols := if "score" ∈ df.cols then df.cols else df.cols ++ ["score"],
          rows := df.rows.map (fun p =>
            { p with score := p.runs * (1 / 2) + p.wickets * 20 + p.strike_rate * (3 / 10) }) }

/-- Stand-in for `pd.util.hash_pandas_object(df).sum()`: a deterministic
content hash of the rows.  Its exact value is irrelevant to the claims;
what matters is that it is a function of the DataFrame content only. -/
def hashDataFrame (df : DataFrame) : ℕ :=
  df.rows.foldl (fun acc p => acc * 31 + p.name.length + (p.price.num.natAbs + p.score.num.natAbs)) 7

/-- `OptimizationCache.get_cache_key` of `cache.py`: the key string
`opt:<budget>:<team_size>:<dataset_hash>` — built from the budget, the
team size and the dataset hash only; the function takes no strategy
argument. -/
def get_cache_key (budget team_size : ℤ) (df : DataFrame) : String :=
  "opt:" ++ toString budget ++ ":" ++ toString team_size ++ ":" ++ toString (hashDataFrame df)

/-- The cache store: an association list from keys to results
(`OptimizationCache._cache`, a dict). -/
def CacheStore := List (String × OptResult)

/-- `OptimizationCache.get`. -/
def cacheGet (cache : CacheStore) (key : String) : Option OptResult :=
  match cache.find? (fun kv => kv.1 = key) with
  | some kv => some kv.2
  | none => none

/-- `OptimizationCache.set`. -/
def cacheSet (cache : CacheStore) (key : String) (value : OptResult) : CacheStore :=
  (key, value) :: cache.filter (fun kv => ¬ kv.1 = key)

/-- The request fields of `BudgetRequest` (`models/schemas.py`) that the
optimize endpoint feeds into the cache-key computation. -/
structure BudgetRequest where
  budget : ℤ
  team_size : ℤ
  strategy : OptimizationStrategy
deriving Repr, DecidableEq

/-- The cache key the endpoint obtains for a request over a dataset: the
only key construction in `cache.py` is `get_cache_key`, which consumes
the budget, the team size and the dataset — the request's strategy has
no slot to flow into. -/
def requestCacheKey (req : BudgetRequest) (df : DataFrame) : String :=
  get_cache_key req.budget req.team_size df

/-- `OptimizationRequest` of `models.py`: forced-inclusion and exclusion
id lists (candidate ids are the `name` column in the dataset the
optimizer consumes). -/
structure OptimizationRequest where
  excluded_players : List String
  required_players : List String
deriving Repr, DecidableEq

/-- The roster the system computes for an `OptimizationRequest`: the only
optimization path is `optimize_team`, whose parameters are the frame,
budget, team size, role constraints and strategy — the request's
required/excluded id lists are never consumed by any code path. -/
def optimizeForRequest (_req : OptimizationRequest) (df : DataFrame) (budget team_size : ℤ)
    (role_constraints : Option (List (String × ℤ))) (strategy : OptimizationStrategy) :
    Except String OptResult :=
  optimize_team df budget team_size role_constraints strategy

/-- The honoring property claimed of forced inclusions and exclusions:
every required id present among the candidates is selected, and no
excluded id is ever selected. -/
def honorsRequest (req : OptimizationRequest) (df : DataFrame) (res : OptResult) : Prop :=
  (∀ id ∈ req.required_players,
    (∃ p ∈ df.rows, p.name = id) → ∃ p ∈ res.players, p.name = id) ∧
  (∀ id ∈ req.excluded_players, ¬ ∃ p ∈ res.players, p.name = id)

instance {ε α : Type} [DecidableEq ε] [DecidableEq α] : DecidableEq (Except ε α) := fun a b =>
  match a, b with
  | .ok x, .ok y =>
      if h : x = y then .isTrue (by rw [h]) else .isFalse (by intro hc; cases hc; exact h rfl)
  | .error x, .error y =>
      if h : x = y then .isTrue (by rw [h]) else .isFalse (by intro hc; cases hc; exact h rfl)
  | .ok _, .error _ => .isFalse (by intro hc; cases hc)
  | .error _, .ok _ => .isFalse (by intro hc; cases hc)

/-- The decision vectors enumerated over `n` variables are exactly the
boolean lists of length `n`. -/
theorem mem_allSelections (n : Nat) (s : List Bool) :
    s ∈ allSelections n ↔ s.length = n := by
  induction n generalizing s with
  | zero =>
      simp [allSelections, List.length_eq_zero]
  | succ n ih =>
      simp only [allSelections, List.mem_append, List.mem_map]
      constructor
      · rintro (⟨t, ht, rfl⟩ | ⟨t, ht, rfl⟩) <;> simp [ (ih t).mp ht ]
      · intro h
        match s with
        | [] => simp at h
        | b :: t =>
            have ht : t ∈ allSelections n := (ih t).mpr (by simpa using h)
            cases b
            · exact Or.inr ⟨t, ht, rfl⟩
            · exact Or.inl ⟨t, ht, rfl⟩

/-- The solver model returns nothing exactly on the empty candidate
list. -/
theorem bestSel_eq_none (obj : List Bool → ℚ) (l : List (List Bool)) :
    bestSel obj l = none ↔ l = [] := by
  cases l with
  | nil => simp [bestSel]
  | cons s rest =>
      simp only [bestSel]
      cases hrec : bestSel obj rest with
      | none => simp
      | some c => by_cases hlt : obj c < obj s <;> simp [hlt]

/-- The solver model returns an element of its candidate list. -/
theorem bestSel_mem (obj : List Bool → ℚ) (l : List (List Bool)) (b : List Bool)
    (h : bestSel obj l = some b) : b ∈ l := by
  induction l generalizing b with
  | nil => simp [bestSel] at h
  | cons s rest ih =>
      cases hrec : bestSel obj rest with
      | none =>
          simp only [bestSel, hrec] at h
          cases h; exact List.mem_cons_self _ _
      | some c =>
          simp only [bestSel, hrec] at h
          by_cases hlt : obj c < obj s
          · rw [if_pos hlt] at h; cases h; exact List.mem_cons_self _ _
          · rw [if_neg hlt] at h
            cases h
            exact List.mem_cons_of_mem _ (ih _ hrec)

/-- The solver model returns a candidate of maximal objective value. -/
theorem bestSel_le (obj : List Bool → ℚ) (l : List (List Bool)) (b : List Bool)
    (h : bestSel obj l = some b) : ∀ s ∈ l, obj s ≤ obj b := by
  induction l generalizing b with
  | nil => simp [bestSel] at h
  | cons s rest ih =>
      intro t ht
      cases hrec : bestSel obj rest with
      | none =>
          simp only [bestSel, hrec] at h
          cases h
          rcases List.mem_cons.mp ht with rfl | htr
          · exact le_refl _
          · rw [(bestSel_eq_none obj rest).mp hrec] at htr
            simp at htr
      | some c =>
          simp only [bestSel, hrec] at h
          by_cases hlt : obj c < obj s
          · rw [if_pos hlt] at h
            cases h
            rcases List.mem_cons.mp ht with rfl | htr
            · exact le_refl _
            · exact le_of_lt (lt_of_le_of_lt (ih _ hrec t htr) hlt)
          · rw [if_neg hlt] at h
            cases h
            rcases List.mem_cons.mp ht with rfl | htr
            · exact le_of_not_lt hlt
            · exact ih _ hrec t htr

/-- `Σ coeff_i · x_i` with coefficients `f` of the rows equals the sum
of `f` over the extracted selected rows. -/
theorem dotSel_map (f : Player → ℚ) (rows : List Player) (sel : List Bool)
    (h : sel.length = rows.length) :
    dotSel (rows.map f) sel = ((selectedRows rows sel).map f).sum := by
  induction rows generalizing sel with
  | nil =>
      have : sel = [] := List.length_eq_zero.mp (by simpa using h)
      subst this
      simp [dotSel, selectedRows]
  | cons p ps ih =>
      match sel with
      | [] => simp at h
      | b :: bs =>
          have hlen : bs.length = ps.length := by simpa using h
          cases b with
          | true =>
              simp only [dotSel, selectedRows, List.map_cons, List.zip_cons_cons,
                List.filter_cons, List.map, List.sum_cons, if_true]
              simpa [dotSel, selectedRows] using ih bs hlen
          | false =>
              simp only [dotSel, selectedRows, List.map_cons, List.zip_cons_cons,
                List.filter_cons, List.map, List.sum_cons, if_false]
              simpa [dotSel, selectedRows] using ih bs hlen

/-- Inversion of a successful `optimize_team` run: the input checks all
passed, the solver model returned an optimal feasible decision vector,
and the result is its extraction. -/
theorem optimize_team_ok_inv (df : DataFrame) (budget team_size : ℤ)
    (role_constraints : Option (List (String × ℤ))) (strategy : OptimizationStrategy)
    (res : OptResult)
    (h : optimize_team df budget team_size role_constraints strategy = .ok res) :
    ∃ best,
      bestSel (dotSel (objCoeffs strategy df.rows))
        (feasibleSels df.rows budget team_size
          (role_constraints.getD optimizerDefaultRoleConstraints)) = some best ∧
      best ∈ feasibleSels df.rows budget team_size
        (role_constraints.getD optimizerDefaultRoleConstraints) ∧
      res = { players := selectedRows df.rows best,
              total_cost := ((selectedRows df.rows best).map (fun p => p.price)).sum,
              total_score := ((selectedRows df.rows best).map (fun p => p.score)).sum } := by
  unfold optimize_team at h
  dsimp only at h
  split at h
  · cases h
  · split at h
    · cases h
    · split at h
      · cases h
      · split at h
        · cases h
        · split at h
          · cases h
          · split at h
            · cases h
            · next best hbest =>
                refine ⟨best, hbest, bestSel_mem _ _ _ hbest, ?_⟩
                cases h
                rfl

/-- Unpacking of the constraint block into propositions. -/
theorem feasibleSel_iff (rows : List Player) (budget team_size : ℤ)
    (role_constraints : List (String × ℤ)) (sel : List Bool) :
    feasibleSel rows budget team_size role_constraints sel = true ↔
      ((selectedRows rows sel).map (fun p => p.price)).sum ≤ (budget : ℚ) ∧
      ((selectedRows rows sel).length : ℤ) = team_size ∧
      ∀ rq ∈ role_constraints,
        (((selectedRows rows sel).filter (fun p => p.role = rq.1)).length : ℤ) = rq.2 := by
  simp [feasibleSel, List.all_eq_true, and_assoc]

/-- Concrete fixtures used by the witnesses: a tiny two-player dataset
with a single role. -/
def wP1 : Player :=
  { name := "A", runs := 0, wickets := 0, strike_rate := 0, price := 3, role := "R", score := 10 }

def wP2 : Player :=
  { name := "B", runs := 0, wickets := 0, strike_rate := 0, price := 4, role := "R", score := 5 }

def wDf : DataFrame :=
  { cols := ["name", "price", "score", "role"], rows := [wP1, wP2] }

def wRc : List (String × ℤ) := [("R", 1)]

/-- C1: for every input on which `optimize_team` returns a result, the
returned roster satisfies all constraints — the selected prices sum to
at most the budget, the number of selected candidates equals `team_size`
exactly, and for every role in the role quota the number of selected
candidates of that role equals the quota's required count exactly. -/
theorem optimize_team_result_satisfies_constraints
    (df : DataFrame) (budget team_size : ℤ)
    (role_constraints : Option (List (String × ℤ))) (strategy : OptimizationStrategy)
    (res : OptResult)
    (h : optimize_team df budget team_size role_constraints strategy = .ok res) :
    ((res.players.map (fun p => p.price)).sum ≤ (budget : ℚ)) ∧
    ((res.players.length : ℤ) = team_size) ∧
    ∀ rq ∈ role_constraints.getD optimizerDefaultRoleConstraints,
      ((res.players.filter (fun p => p.role = rq.1)).length : ℤ) = rq.2 := by
  obtain ⟨best, _, hmem, hres⟩ :=
    optimize_team_ok_inv df budget team_size role_constraints strategy res h
  have hfeas := (List.mem_filter.mp hmem).2
  rw [feasibleSel_iff] at hfeas
  subst hres
  exact hfeas

/-- Witness for C1 at the concrete fixture. -/
theorem optimize_team_result_satisfies_constraints_witness :
    (((OptResult.mk [wP1] 3 10).players.map (fun p => p.price)).sum ≤ ((10 : ℤ) : ℚ)) ∧
    (((OptResult.mk [wP1] 3 10).players.length : ℤ) = 1) ∧
    ∀ rq ∈ (some wRc).getD optimizerDefaultRoleConstraints,
      (((OptResult.mk [wP1] 3 10).players.filter (fun p => p.role = rq.1)).length : ℤ) = rq.2 :=
  optimize_team_result_satisfies_constraints wDf 10 1 (some wRc) .MAX_SCORE
    (OptResult.mk [wP1] 3 10) (by decide)

/-- C2: under the `MAX_SCORE` strategy, whenever `optimize_team` returns
a result, no other subset of the candidates satisfying the budget,
team-size and role-quota constraints has a strictly greater total score
than the returned roster's `total_score` (every feasible selection's
score sum is at most it). -/
theorem optimize_team_max_score_optimal (df : DataFrame) (budget team_size : ℤ)
    (role_constraints : Option (List (String × ℤ))) (res : OptResult)
    (h : optimize_team df budget team_size role_constraints .MAX_SCORE = .ok res) :
    ∀ sel : List Bool, sel.length = df.rows.length →
      feasibleSel df.rows budget team_size
        (role_constraints.getD optimizerDefaultRoleConstraints) sel = true →
      ((selectedRows df.rows sel).map (fun p => p.score)).sum ≤ res.total_score := by
  intro sel hlen hfeas
  obtain ⟨best, hbest, hmem, hres⟩ :=
    optimize_team_ok_inv df budget team_size role_constraints .MAX_SCORE res h
  have hbl : best.length = df.rows.length :=
    (mem_allSelections _ _).mp (List.mem_filter.mp hmem).1
  have hselmem : sel ∈ feasibleSels df.rows budget team_size
      (role_constraints.getD optimizerDefaultRoleConstraints) :=
    List.mem_filter.mpr ⟨(mem_allSelections _ _).mpr hlen, hfeas⟩
  have hle := bestSel_le _ _ _ hbest sel hselmem
  have hobj : objCoeffs .MAX_SCORE df.rows = df.rows.map (fun p => p.score) := rfl
  rw [hobj, dotSel_map _ _ _ hlen, dotSel_map _ _ _ hbl] at hle
  rw [hres]
  exact hle

/-- Witness for C2 at the concrete fixture: the competing feasible
selection that picks the second player scores no more than the returned
roster. -/
theorem optimize_team_max_score_optimal_witness :
    ((selectedRows wDf.rows [false, true]).map (fun p => p.score)).sum ≤
      (OptResult.mk [wP1] 3 10).total_score :=
  optimize_team_max_score_optimal wDf 10 1 (some wRc) (OptResult.mk [wP1] 3 10)
    (by decide) [false, true] (by decide) (by decide)

/-- C6: on every input that reaches the solve and on which the solver
reports any status other than proven optimal, `optimize_team` raises a
failure whose message carries the solver's status label, and returns no
roster. -/
theorem optimize_team_non_optimal_raises (df : DataFrame) (budget team_size : ℤ)
    (role_constraints : Option (List (String × ℤ))) (strategy : OptimizationStrategy)
    (hcols : (optimizerRequiredColumns.filter (fun c => decide (c ∉ df.cols))).isEmpty = true)
    (hne : df.rows.isEmpty = false)
    (hts : 0 < team_size)
    (hlen : team_size ≤ (df.rows.length : ℤ))
    (hb : 0 < budget)
    (hstat : solverStatus df.rows budget team_size
        (role_constraints.getD optimizerDefaultRoleConstraints) ≠ .Optimal) :
    optimize_team df budget team_size role_constraints strategy =
      .error ("No optimal solution found. Status: " ++
        lpStatusLabel (solverStatus df.rows budget team_size
          (role_constraints.getD optimizerDefaultRoleConstraints))) ∧
    ∀ res : OptResult,
      optimize_team df budget team_size role_constraints strategy ≠ .ok res := by
  have hfeas : feasibleSels df.rows budget team_size
      (role_constraints.getD optimizerDefaultRoleConstraints) = [] := by
    by_cases hE : (feasibleSels df.rows budget team_size
        (role_constraints.getD optimizerDefaultRoleConstraints)).isEmpty
    · exact List.isEmpty_iff.mp hE
    · exfalso
      apply hstat
      unfold solverStatus
      rw [if_neg hE]
  have hmain : optimize_team df budget team_size role_constraints strategy =
      .error ("No optimal solution found. Status: " ++
        lpStatusLabel (solverStatus df.rows budget team_size
          (role_constraints.getD optimizerDefaultRoleConstraints))) := by
    unfold optimize_team
    dsimp only
    rw [if_neg (not_not_intro hcols)]
    rw [if_neg (by simp [hne])]
    rw [if_neg (not_le.mpr hts)]
    rw [if_neg (not_lt.mpr hlen)]
    rw [if_neg (not_le.mpr hb)]
    rw [hfeas]
    rfl
  refine ⟨hmain, fun res hok => ?_⟩
  rw [hmain] at hok
  cases hok

/-- Witness for C6: a quota over a role with no candidates makes the
full program infeasible, and the run fails carrying the label. -/
theorem optimize_team_non_optimal_raises_witness :
    (optimize_team wDf 10 1 (some [("X", 1)]) .MAX_SCORE =
      .error ("No optimal solution found. Status: " ++
        lpStatusLabel (solverStatus wDf.rows 10 1
          ((some [("X", 1)]).getD optimizerDefaultRoleConstraints)))) ∧
    ∀ res : OptResult, optimize_team wDf 10 1 (some [("X", 1)]) .MAX_SCORE ≠ .ok res :=
  optimize_team_non_optimal_raises wDf 10 1 (some [("X", 1)]) .MAX_SCORE
    (by decide) (by decide) (by decide) (by decide) (by decide) (by decide)

/-- The efficiency coefficient list is the per-row efficiency formula,
mapped. -/
theorem efficiencies_eq_map (rows : List Player) :
    efficiencies (rows.map (fun p => p.price)) (rows.map (fun p => p.score)) =
      rows.map (fun p =>
        if 0 < p.price then p.score / p.price
        else if 0 < p.score then p.score * 1000 else 0) := by
  induction rows with
  | nil => rfl
  | cons p ps ih => simp [efficiencies] at ih ⊢; exact ih

/-- C5: under `MAX_SCORE_PER_COST`, the objective coefficient of every
candidate equals `score/price` when `price > 0`, and when `price = 0` it
equals `score * 1000` if `score > 0` and `0` otherwise — the coefficient
at a zero price is produced by the multiplication branch, never by a
division. -/
theorem efficiency_coefficient_no_div_zero (rows : List Player) (i : Nat)
    (hi : i < rows.length) :
    (objCoeffs .MAX_SCORE_PER_COST rows).get? i =
      some (if 0 < (rows.get ⟨i, hi⟩).price
        then (rows.get ⟨i, hi⟩).score / (rows.get ⟨i, hi⟩).price
        else if 0 < (rows.get ⟨i, hi⟩).score then (rows.get ⟨i, hi⟩).score * 1000 else 0) ∧
    ((rows.get ⟨i, hi⟩).price = 0 →
      (objCoeffs .MAX_SCORE_PER_COST rows).get? i =
        some (if 0 < (rows.get ⟨i, hi⟩).score
          then (rows.get ⟨i, hi⟩).score * 1000 else 0)) := by
  have hmap : objCoeffs .MAX_SCORE_PER_COST rows =
      rows.map (fun p =>
        if 0 < p.price then p.score / p.price
        else if 0 < p.score then p.score * 1000 else 0) := by
    unfold objCoeffs
    exact efficiencies_eq_map rows
  constructor
  · rw [hmap]
    rw [List.get?_map, List.get?_eq_get hi]
    rfl
  · intro hzero
    rw [hmap, List.get?_map, List.get?_eq_get hi]
    have hnp : ¬ 0 < (rows.get ⟨i, hi⟩).price := by rw [hzero]; exact lt_irrefl 0
    show some _ = some _
    beta_reduce
    rw [if_neg hnp]

/-- A zero-price player used by the C5 witness. -/
def wZeroPrice : Player :=
  { name := "Z", runs := 0, wickets := 0, strike_rate := 0, price := 0, role := "R", score := 7 }

/-- Witness for C5 at a concrete zero-price candidate. -/
theorem efficiency_coefficient_no_div_zero_witness :
    ((objCoeffs .MAX_SCORE_PER_COST [wZeroPrice]).get? 0 =
      some (if 0 < ([wZeroPrice].get ⟨0, by decide⟩).price
        then ([wZeroPrice].get ⟨0, by decide⟩).score / ([wZeroPrice].get ⟨0, by decide⟩).price
        else if 0 < ([wZeroPrice].get ⟨0, by decide⟩).score
          then ([wZeroPrice].get ⟨0, by decide⟩).score * 1000 else 0)) ∧
    (([wZeroPrice].get ⟨0, by decide⟩).price = 0 →
      (objCoeffs .MAX_SCORE_PER_COST [wZeroPrice]).get? 0 =
        some (if 0 < ([wZeroPrice].get ⟨0, by decide⟩).score
          then ([wZeroPrice].get ⟨0, by decide⟩).score * 1000 else 0)) :=
  efficiency_coefficient_no_div_zero [wZeroPrice] 0 (by decide)

/-- C10: when the caller omits `role_constraints`, the validator and the
engine substitute the identical default quota
`WK 1, BAT 4, BOWL 3, ALL 3`, whose counts sum to 11 (the default team
size of `optimize_team`), so both components check and enforce the same
quota for a defaulted request. -/
theorem default_role_constraints_agree :
    optimizerDefaultRoleConstraints = validatorDefaultRoleConstraints ∧
    optimizerDefaultRoleConstraints =
      [("WK", 1), ("BAT", 4), ("BOWL", 3), ("ALL", 3)] ∧
    (optimizerDefaultRoleConstraints.map (fun rq => rq.2)).sum = 11 ∧
    (∀ df budget, optimize_team df budget =
      optimize_team df budget 11 (some optimizerDefaultRoleConstraints) .MAX_SCORE) ∧
    (∀ (df : DataFrame) (budget team_size : ℤ) (strategy : OptimizationStrategy),
      optimize_team df budget team_size none strategy =
        optimize_team df budget team_size (some optimizerDefaultRoleConstraints) strategy) ∧
    (∀ (budget : ℤ) (df : DataFrame),
      validate_optimization_inputs budget df none =
        validate_optimization_inputs budget df (some validatorDefaultRoleConstraints)) :=
  ⟨rfl, rfl, rfl, fun _ _ => rfl, fun _ _ _ _ => rfl, fun _ _ => rfl⟩

/-- C8: on any frame carrying the `runs`, `wickets` and `strike_rate`
columns, `calculate_score` returns a new frame in which every row's
score is `0.5*runs + 20*wickets + 0.3*strike_rate` while every other
field of every row is unchanged (the input value itself is untouched:
the source writes into a copy and the embedding is pure), and applying
the function again to the result reproduces it — in particular the
scores of two applications agree. -/
theorem calculate_score_correct (df d : DataFrame)
    (h : calculate_score df = .ok d) :
    d.rows.map (fun p => p.score) =
      df.rows.map (fun p => 0.5 * p.runs + 20 * p.wickets + 0.3 * p.strike_rate) ∧
    d.rows.map (fun p => (p.name, p.runs, p.wickets, p.strike_rate, p.price, p.role)) =
      df.rows.map (fun p => (p.name, p.runs, p.wickets, p.strike_rate, p.price, p.role)) ∧
    calculate_score d = .ok d := by
  unfold calculate_score at h
  split at h
  · cases h
  · next hmiss =>
      have hcols : ∀ c ∈ scoringRequiredColumns, c ∈ df.cols := by
        intro c hc
        have hempty : (scoringRequiredColumns.filter (fun c => decide (c ∉ df.cols))).isEmpty
            = true := by
          by_cases hb : (scoringRequiredColumns.filter
              (fun c => decide (c ∉ df.cols))).isEmpty = true
          · exact hb
          · exact absurd hb hmiss
        have hnil := List.isEmpty_iff.mp hempty
        have := List.filter_eq_nil.mp hnil c hc
        simpa using this
      cases h
      refine ⟨?_, ?_, ?_⟩
      · simp only [List.map_map]
        refine List.map_congr_left ?_
        intro p _
        show p.runs * (1 / 2) + p.wickets * 20 + p.strike_rate * (3 / 10) =
          0.5 * p.runs + 20 * p.wickets + 0.3 * p.strike_rate
        norm_num
        ring
      · simp only [List.map_map]
        rfl
      · have hscore : ("score" : String) ∈
            (if "score" ∈ df.cols then df.cols else df.cols ++ ["score"]) := by
          by_cases hs : ("score" : String) ∈ df.cols
          · rw [if_pos hs]; exact hs
          · rw [if_neg hs]
            exact List.mem_append_right _ (List.mem_singleton.mpr rfl)
        have hcols2 : ∀ c ∈ scoringRequiredColumns,
            c ∈ (if "score" ∈ df.cols then df.cols else df.cols ++ ["score"]) := by
          intro c hc
          by_cases hs : ("score" : String) ∈ df.cols
          · rw [if_pos hs]; exact hcols c hc
          · rw [if_neg hs]; exact List.mem_append_left _ (hcols c hc)
        unfold calculate_score
        rw [if_neg (not_not_intro ?_)]
        · rw [if_pos hscore]
          simp only [List.map_map]
          rfl
        · rw [List.isEmpty_iff]
          rw [List.filter_eq_nil]
          intro c hc
          simpa using hcols2 c hc

/-- Raw (unscored) row used by the C8 witness. -/
def wRaw : Player :=
  { name := "C", runs := 10, wickets := 2, strike_rate := 100, price := 6, role := "BAT", score := 0 }

/-- Input frame of the C8 witness. -/
def wRawDf : DataFrame :=
  { cols := ["name", "runs", "wickets", "strike_rate", "price", "role"], rows := [wRaw] }

/-- Scored frame the C8 witness obtains (score `75 = 0.5*10 + 20*2 + 0.3*100`). -/
def wScoredDf : DataFrame :=
  { cols := ["name", "runs", "wickets", "strike_rate", "price", "role", "score"],
    rows := [{ wRaw with score := 75 }] }

/-- Witness for C8 at the concrete raw frame. -/
theorem calculate_score_correct_witness :
    wScoredDf.rows.map (fun p => p.score) =
      wRawDf.rows.map (fun p => 0.5 * p.runs + 20 * p.wickets + 0.3 * p.strike_rate) ∧
    wScoredDf.rows.map (fun p => (p.name, p.runs, p.wickets, p.strike_rate, p.price, p.role)) =
      wRawDf.rows.map (fun p => (p.name, p.runs, p.wickets, p.strike_rate, p.price, p.role)) ∧
    calculate_score wScoredDf = .ok wScoredDf :=
  calculate_score_correct wRawDf wScoredDf (by decide)

/-- C3 (bug evidence): `get_cache_key` consumes no strategy, so two
requests over the same dataset differing only in strategy receive the
same key, and a result cached under one request's key is returned for
the other request's key. -/
theorem cache_key_ignores_strategy :
    (requestCacheKey (BudgetRequest.mk 100 11 .MAX_SCORE) wDf =
      requestCacheKey (BudgetRequest.mk 100 11 .MAX_SCORE_PER_COST) wDf) ∧
    ∀ res : OptResult,
      cacheGet
        (cacheSet [] (requestCacheKey (BudgetRequest.mk 100 11 .MAX_SCORE) wDf) res)
        (requestCacheKey (BudgetRequest.mk 100 11 .MAX_SCORE_PER_COST) wDf) = some res := by
  refine ⟨rfl, fun res => ?_⟩
  show cacheGet [(requestCacheKey (BudgetRequest.mk 100 11 .MAX_SCORE) wDf, res)] _ = some res
  rfl

/-- C7 counterexample: a request requiring candidate `B`, who is present
in the dataset, still gets the roster `[A]` — `optimize_team` has no
required-ids input at all, so the request is not honored. -/
theorem forced_inclusion_not_honored :
    optimize_team wDf 10 1 (some wRc) .MAX_SCORE = .ok (OptResult.mk [wP1] 3 10) ∧
    "B" ∈ (OptimizationRequest.mk [] ["B"]).required_players ∧
    (∃ p ∈ wDf.rows, p.name = "B") ∧
    ¬ honorsRequest (OptimizationRequest.mk [] ["B"]) wDf (OptResult.mk [wP1] 3 10) := by
  refine ⟨by decide, by decide, ⟨wP2, by decide⟩, ?_⟩
  intro hhon
  obtain ⟨p, hp, hname⟩ := hhon.1 "B" (by decide) ⟨wP2, by decide, by decide⟩
  rw [List.mem_singleton] at hp
  subst hp
  exact absurd hname (by decide)

/-- C7 amended: the optimization outcome is the same for any two
requests over the same inputs — the required/excluded id lists of the
request model are never consumed, so forced inclusions and exclusions
cannot influence the roster. -/
theorem optimize_ignores_required_excluded (req1 req2 : OptimizationRequest)
    (df : DataFrame) (budget team_size : ℤ)
    (role_constraints : Option (List (String × ℤ))) (strategy : OptimizationStrategy) :
    optimizeForRequest req1 df budget team_size role_constraints strategy =
      optimizeForRequest req2 df budget team_size role_constraints strategy := rfl

/-- Frame with a duplicated id used by the C9 counterexample. -/
def wDupDf : DataFrame :=
  { cols := ["name", "price", "role", "score"], rows := [wP1, wP1] }

/-- C9 counterexample: a candidate set with duplicate ids (two rows
named `A`) and otherwise valid data passes `validate_dataframe` — the
function has no duplicate-id check. -/
theorem validate_dataframe_accepts_duplicate_ids :
    (wDupDf.rows.map (fun p => p.name)) = ["A", "A"] ∧
    validate_dataframe wDupDf = .ok () := ⟨rfl, rfl⟩

/-- C9 amended: `validate_dataframe` raises whenever the set is missing
a required column or contains a candidate with a non-positive price
(duplicate ids are not among its checks). -/
theorem validate_dataframe_rejects (df : DataFrame)
    (h : (∃ c ∈ dataframeRequiredColumns, c ∉ df.cols) ∨ (∃ p ∈ df.rows, p.price ≤ 0)) :
    ∃ msg, validate_dataframe df = .error msg := by
  unfold validate_dataframe
  by_cases h1 : df.rows.isEmpty
  · exact ⟨_, by rw [if_pos h1]⟩
  · rw [if_neg h1]
    by_cases h2 : ¬ (dataframeRequiredColumns.filter (fun c => decide (c ∉ df.cols))).isEmpty
        = true
    · exact ⟨_, by rw [if_pos h2]⟩
    · rw [if_neg h2]
      by_cases h3 : ¬ (df.rows.filter (fun p => decide (p.price ≤ 0))).isEmpty = true
      · exact ⟨_, by rw [if_pos h3]⟩
      · exfalso
        rcases h with ⟨c, hc, hcm⟩ | ⟨p, hp, hpp⟩
        · apply h2
          intro hemp
          have hnil := List.isEmpty_iff.mp hemp
          have : c ∈ dataframeRequiredColumns.filter (fun c => decide (c ∉ df.cols)) :=
            List.mem_filter.mpr ⟨hc, by simpa using hcm⟩
          rw [hnil] at this
          simp at this
        · apply h3
          intro hemp
          have hnil := List.isEmpty_iff.mp hemp
          have : p ∈ df.rows.filter (fun p => decide (p.price ≤ 0)) :=
            List.mem_filter.mpr ⟨hp, by simpa using hpp⟩
          rw [hnil] at this
          simp at this

/-- Frame with a non-positive price used by the C9 witness. -/
def wBadPriceDf : DataFrame :=
  { cols := ["name", "price", "role", "score"],
    rows := [{ wP1 with price := 0 }] }

/-- Witness for the amended C9 at a concrete zero-price frame. -/
theorem validate_dataframe_rejects_witness :
    ∃ msg, validate_dataframe wBadPriceDf = .error msg :=
  validate_dataframe_rejects wBadPriceDf (Or.inr ⟨{ wP1 with price := 0 }, by decide, by decide⟩)

/-- The availability walk succeeds when every quota role has at least
its required count available. -/
theorem checkAvailability_ok (rows : List Player) (rc : List (String × ℤ))
    (hsuff : ∀ rq ∈ rc, rq.2 ≤ (roleAvail rows rq.1 : ℤ)) :
    checkAvailability rows rc = .ok () := by
  induction rc with
  | nil => rfl
  | cons rq rest ih =>
      obtain ⟨role, cnt⟩ := rq
      simp only [checkAvailability]
      rw [if_neg (not_lt.mpr (hsuff (role, cnt) (List.mem_cons_self _ _)))]
      exact ih (fun rq h => hsuff rq (List.mem_cons_of_mem _ h))

/-- The minimum-cost walk computes the specification's lower-bound cost
when every quota role has at least one candidate. -/
theorem minCostLoop_ok (rows : List Player) (rc : List (String × ℤ))
    (havail : ∀ rq ∈ rc, 0 < roleAvail rows rq.1) :
    minCostLoop rows rc = .ok (lowerBoundCost rows rc) := by
  induction rc with
  | nil => rfl
  | cons rq rest ih =>
      obtain ⟨role, cnt⟩ := rq
      have hne : ¬ (rows.filter (fun p => p.role = role)).isEmpty = true := by
        intro hemp
        have hpos := havail (role, cnt) (List.mem_cons_self _ _)
        unfold roleAvail at hpos
        rw [List.isEmpty_iff.mp hemp] at hpos
        simp at hpos
      simp only [minCostLoop]
      rw [if_neg hne, ih (fun rq h => havail rq (List.mem_cons_of_mem _ h))]
      rfl

/-- C4 amended: given a positive budget, the required columns present,
sufficient candidates per quota role, and — additionally — at least one
available candidate for every quota role, `validate_optimization_inputs`
succeeds exactly when the budget reaches the lower-bound cost (the sum,
over the quota roles, of the prices of the `required_count` cheapest
candidates of the role), and raises exactly when the budget is strictly
below it. -/
theorem validate_budget_lower_bound_iff (budget : ℤ) (df : DataFrame)
    (rc : List (String × ℤ))
    (hb : 0 < budget)
    (hcols : ∀ c ∈ validatorRequiredColumns, c ∈ df.cols)
    (hsuff : ∀ rq ∈ rc, rq.2 ≤ (roleAvail df.rows rq.1 : ℤ))
    (havail : ∀ rq ∈ rc, 0 < roleAvail df.rows rq.1) :
    (validate_optimization_inputs budget df (some rc) = .ok () ↔
      lowerBoundCost df.rows rc ≤ (budget : ℚ)) ∧
    ((∃ msg, validate_optimization_inputs budget df (some rc) = .error msg) ↔
      (budget : ℚ) < lowerBoundCost df.rows rc) := by
  have hv : validate_optimization_inputs budget df (some rc) =
      if (budget : ℚ) < lowerBoundCost df.rows rc then .error "Budget is insufficient"
      else .ok () := by
    unfold validate_optimization_inputs
    dsimp only
    simp only [Option.getD_some]
    rw [if_neg (not_le.mpr hb)]
    rw [if_neg (not_not_intro (List.isEmpty_iff.mpr
      (List.filter_eq_nil_iff.mpr (fun c hc => by simpa using hcols c hc))))]
    rw [checkAvailability_ok df.rows rc hsuff, minCostLoop_ok df.rows rc havail]
    rfl
  constructor
  · constructor
    · intro hok
      by_contra hnle
      rw [hv, if_pos (not_le.mp hnle)] at hok
      cases hok
    · intro hle
      rw [hv, if_neg (not_lt.mpr hle)]
  · constructor
    · rintro ⟨msg, herr⟩
      by_contra hnlt
      rw [hv, if_neg hnlt] at herr
      cases herr
    · intro hlt
      exact ⟨_, by rw [hv, if_pos hlt]⟩

/-- C4 counterexample: with budget 100 > 0, the required columns
present, and the quota `B ↦ 0` (0 required, 0 available — sufficient),
the lower-bound cost is 0 ≤ 100, yet validation raises: the per-role
minimum-cost loop rejects any quota role with no candidates regardless
of the budget. -/
theorem validate_budget_lower_bound_counterexample :
    (0 : ℤ) < 100 ∧
    (∀ c ∈ validatorRequiredColumns, c ∈ (["name", "price", "role"] : List String)) ∧
    (∀ rq ∈ [(("B", 0) : String × ℤ)],
      rq.2 ≤ (roleAvail ([] : List Player) rq.1 : ℤ)) ∧
    lowerBoundCost ([] : List Player) [("B", 0)] = 0 ∧
    ¬ (((100 : ℤ) : ℚ) < lowerBoundCost ([] : List Player) [("B", 0)]) ∧
    validate_optimization_inputs 100 (DataFrame.mk ["name", "price", "role"] [])
      (some [("B", 0)]) = .error "No players available for role B" :=
  ⟨by decide, by decide, by decide, by decide, by decide, rfl⟩

/-- Witness for the amended C4: at the two-player fixture with quota
`R ↦ 1` and budget 3, the lower-bound cost is exactly 3 and validation
succeeds at the boundary. -/
theorem validate_budget_lower_bound_iff_witness :
    ((validate_optimization_inputs 3 (DataFrame.mk ["name", "price", "role"] [wP1, wP2])
        (some wRc) = .ok ()) ↔
      lowerBoundCost [wP1, wP2] wRc ≤ ((3 : ℤ) : ℚ)) ∧
    ((∃ msg, validate_optimization_inputs 3
        (DataFrame.mk ["name", "price", "role"] [wP1, wP2]) (some wRc) = .error msg) ↔
      ((3 : ℤ) : ℚ) < lowerBoundCost [wP1, wP2] wRc) :=
  validate_budget_lower_bound_iff 3 (DataFrame.mk ["name", "price", "role"] [wP1, wP2]) wRc
    (by decide) (by decide) (by decide) (by decide)
